import Mathlib

/-!
Verification of the AIAgent cli-agent core: the completion classifier, the
MCP tool catalog and fallback dispatcher, and the Reason/Act/Evaluate
orchestration loop.  The definitions below are a shallow embedding of
`src/cli-agent/src/ai-interaction.ts` and
`src/cli-agent/src/mcp-interaction.ts` (the `MCPInteraction` class shipped
inside `index.ts`).  External effects (the Ollama chat backend and the MCP
server clients) are modelled as oracles: a backend response is
`Option ChatResponseMsg` (`none` models a transport failure, mirroring
`sendAIRequest` returning `null`), and each MCP server carries its
`listTools`/`callTool` behaviour as data (`none` models a thrown exception).
-/

namespace AIAgent

/-! ## Substring machinery (JS `String.prototype.includes`) -/

/-- `startsWithList n h` decides whether `n` is a prefix of `h`. -/
def startsWithList : List Char → List Char → Bool
  | [], _ => true
  | _ :: _, [] => false
  | a :: as, b :: bs => a == b && startsWithList as bs

/-- `containsSub n h` decides whether `n` occurs contiguously inside `h`. -/
def containsSub (n : List Char) : List Char → Bool
  | [] => startsWithList n []
  | b :: bs => startsWithList n (b :: bs) || containsSub n bs

/-- Executable model of JS `hay.includes(needle)`. -/
def strIncludes (hay needle : String) : Bool :=
  containsSub needle.data hay.data

/-- Propositional form: `needle` occurs as a contiguous substring of `hay`. -/
def strContains (hay needle : String) : Prop :=
  ∃ u v : List Char, hay.data = u ++ needle.data ++ v

theorem startsWithList_iff (n : List Char) :
    ∀ h : List Char, startsWithList n h = true ↔ ∃ v, h = n ++ v := by
  induction n with
  | nil =>
    intro h
    simp [startsWithList]
  | cons a as ih =>
    intro h
    cases h with
    | nil =>
      simp [startsWithList]
    | cons b bs =>
      simp only [startsWithList, Bool.and_eq_true, beq_iff_eq, ih bs,
        List.cons_append, List.cons.injEq]
      constructor
      · rintro ⟨hab, v, hv⟩
        exact ⟨v, hab.symm, hv⟩
      · rintro ⟨v, hab, hv⟩
        exact ⟨hab.symm, v, hv⟩

theorem containsSub_iff (n : List Char) :
    ∀ h : List Char, containsSub n h = true ↔ ∃ u v, h = u ++ n ++ v := by
  intro h
  induction h with
  | nil =>
    simp only [containsSub, startsWithList_iff]
    constructor
    · rintro ⟨v, hv⟩
      exact ⟨[], v, by simpa using hv⟩
    · rintro ⟨u, v, huv⟩
      have h1 := List.append_eq_nil.mp huv.symm
      have h2 := List.append_eq_nil.mp h1.1
      exact ⟨[], by simp [h2.2]⟩
  | cons b bs ih =>
    simp only [containsSub, Bool.or_eq_true, startsWithList_iff, ih]
    constructor
    · rintro (⟨v, hv⟩ | ⟨u, v, huv⟩)
      · exact ⟨[], v, by simpa using hv⟩
      · exact ⟨b :: u, v, by simp [huv]⟩
    · rintro ⟨u, v, huv⟩
      cases u with
      | nil =>
        exact Or.inl ⟨v, by simpa using huv⟩
      | cons c cs =>
        have h2 : bs = cs ++ n ++ v := by
          have h3 := huv
          simp only [List.cons_append, List.cons.injEq] at h3
          exact h3.2
        exact Or.inr ⟨cs, v, h2⟩

theorem strIncludes_iff (hay needle : String) :
    strIncludes hay needle = true ↔ strContains hay needle := by
  unfold strIncludes strContains
  exact containsSub_iff needle.data hay.data

theorem strContains_self (s : String) : strContains s s :=
  ⟨[], [], by simp⟩

theorem strContains_append_left (a b s : String) (h : strContains a s) :
    strContains (a ++ b) s := by
  rcases h with ⟨u, v, huv⟩
  exact ⟨u, v ++ b.data, by simp [huv]⟩

theorem strContains_append_right (a b s : String) (h : strContains b s) :
    strContains (a ++ b) s := by
  rcases h with ⟨u, v, huv⟩
  exact ⟨a.data ++ u, v, by simp [huv]⟩

/-- JS string interpolation separator semantics of `Array.prototype.join(sep)`. -/
def joinSep (sep : String) : List String → String
  | [] => ""
  | [x] => x
  | x :: y :: xs => x ++ sep ++ joinSep sep (y :: xs)

theorem strContains_joinSep (sep : String) :
    ∀ (l : List String) (t : String), t ∈ l → strContains (joinSep sep l) t := by
  intro l
  induction l with
  | nil =>
    intro t ht
    cases ht
  | cons x xs ih =>
    intro t ht
    cases xs with
    | nil =>
      have hx : t = x := by simpa using ht
      simpa [joinSep, hx] using strContains_self x
    | cons y ys =>
      rcases List.mem_cons.mp ht with hx | hmem
      · exact strContains_append_left _ _ _
          (strContains_append_left _ _ _ (hx ▸ strContains_self t))
      · exact strContains_append_right _ _ _ (ih t hmem)

/-- JS `a || b` on an optional string: `undefined` and `""` both fall back. -/
def jsOrString : Option String → String → String
  | some s, d => if s = "" then d else s
  | none, d => d

/-! ## Data model

Shallow embedding of the TypeScript data shapes: Ollama chat messages and
responses, MCP tool metadata, and the Ollama function-tool format produced
by `MCPInteraction.getMCPTools`. -/

/-- The key/value argument mapping of a tool call. -/
abbrev ToolArgs := List (String × String)

structure ToolCall where
  name : String
  arguments : ToolArgs
deriving DecidableEq

/-- The `message` part of an Ollama `ChatResponse`. -/
structure ChatResponseMsg where
  content : String
  tool_calls : List ToolCall
deriving DecidableEq

/-- One entry of an MCP `callTool` response `content` array. -/
structure ToolContent where
  text : String
deriving DecidableEq

/-- Result object returned by an MCP server for `callTool`. -/
structure ToolResponse where
  content : List ToolContent
deriving DecidableEq

structure PropertySchema where
  type : Option String := none
  description : Option String := none
deriving DecidableEq

/-- JSON schema of a tool parameter object. -/
structure ToolParameters where
  type : String
  required : Option (List String) := none
  properties : Option (List (String × PropertySchema)) := none
deriving DecidableEq

/-- The fallback schema `{ type: "object", properties: {} }` used when an MCP
tool carries no `inputSchema`. -/
def defaultToolParameters : ToolParameters :=
  { type := "object", properties := some [] }

/-- A tool as reported by an MCP server (`response.tools` entry). -/
structure MCPTool where
  name : String
  description : Option String := none
  inputSchema : Option ToolParameters := none
deriving DecidableEq

structure ToolFunctionDef where
  name : String
  description : Option String
  parameters : ToolParameters
deriving DecidableEq

/-- Ollama function-tool format. -/
structure OllamaTool where
  type : String
  function : ToolFunctionDef
deriving DecidableEq

/-- A registered MCP server.  `listToolsResult = none` models a
`client.listTools()` call that throws; `callToolResult name args = none`
models a `client.callTool` invocation that throws. -/
structure MCPServer where
  name : String
  listToolsResult : Option (List MCPTool) := none
  callToolResult : String → ToolArgs → Option ToolResponse := fun _ _ => none

/-! ## MCPInteraction: catalog assembly and fallback dispatch -/

/-- The MCP-tool → Ollama-tool conversion performed inside `getMCPTools`. -/
def convertMCPTool (t : MCPTool) : OllamaTool :=
  { type := "function",
    function :=
      { name := t.name,
        description := t.description,
        parameters := t.inputSchema.getD defaultToolParameters } }

/-- Tools contributed by one server: its converted list, or nothing when its
`listTools` throws (the `catch` branch of `getMCPTools`). -/
def serverTools (s : MCPServer) : List OllamaTool :=
  match s.listToolsResult with
  | some ts => ts.map convertMCPTool
  | none => []

/-- `MCPInteraction.getMCPTools`: accumulate every server's converted tools
in registration order; a throwing server contributes nothing. -/
def getMCPTools : List MCPServer → List OllamaTool
  | [] => []
  | s :: rest => serverTools s ++ getMCPTools rest

/-- The error message thrown when no server can execute the requested tool. -/
def toolNotFoundMessage (toolName : String) : String :=
  "Tool " ++ toolName ++ " not found on any MCP server"

/-- `MCPInteraction.callMCPTool`: try each server in registration order and
return the first non-throwing `callTool` result; throw `toolNotFoundMessage`
when every server throws. -/
def callMCPTool : List MCPServer → String → ToolArgs → Except String ToolResponse
  | [], toolName, _ => Except.error (toolNotFoundMessage toolName)
  | s :: rest, toolName, args =>
    match s.callToolResult toolName args with
    | some r => Except.ok r
    | none => callMCPTool rest toolName args

/-- The servers on which the `callMCPTool` loop actually invokes `callTool`:
every server up to and including the first one that succeeds. -/
def attemptedServers : List MCPServer → String → ToolArgs → List MCPServer
  | [], _, _ => []
  | s :: rest, toolName, args =>
    match s.callToolResult toolName args with
    | some _ => [s]
    | none => s :: attemptedServers rest toolName args

/-! ## AIInteraction: classifier, phase functions and prompts

The three phase methods `Reason`, `RunTools` and `Evaluate` each issue one
`sendAIRequest`; here the backend response arrives as an explicit
`Option ChatResponseMsg` argument, and the prompt each method builds for
that request is a separate definition so the loop can record it. -/

/-- The `Available tools:` listing interpolated into every phase prompt:
`name: description` per tool, `"No description"` when absent or empty. -/
def toolsDescription (tools : List OllamaTool) : String :=
  joinSep "\n"
    (tools.map fun t =>
      t.function.name ++ ": " ++ jsOrString t.function.description "No description")

/-- JS `s.toLowerCase()`, character by character. -/
def jsToLowerCase (s : String) : String :=
  String.mk (s.data.map Char.toLower)

/-- The completion heuristic of `AIInteraction.Evaluate` (source lines
268-272): lower-case the evaluation text and test the three substring
rules. -/
def classifyIsComplete (responseText : String) : Bool :=
  let lowerResponse := jsToLowerCase responseText
  strIncludes lowerResponse "**done**" ||
  strIncludes lowerResponse "task evaluation: complete" ||
  (strIncludes lowerResponse "complete" && strIncludes lowerResponse "task")

/-- Sentinel substituted when the EVALUATE backend call yields no response. -/
def evalFailureText : String := "Failed to evaluate task completion"

/-- `response?.message.content || "Failed to evaluate task completion"`. -/
def evalResponseText (response : Option ChatResponseMsg) : String :=
  jsOrString (response.map ChatResponseMsg.content) evalFailureText

/-- `AIInteraction.Evaluate` outcome: the pair `(isComplete, finalResponse)`
computed from the evaluation response.  The first three arguments feed only
the prompt (see `evaluationPrompt`), never the returned value. -/
def Evaluate (_originalMessage _reasoning : String) (_toolResults : List String)
    (response : Option ChatResponseMsg) : Bool × String :=
  (classifyIsComplete (evalResponseText response), evalResponseText response)

/-- `AIInteraction.Reason` result text:
`response?.message.content || "Failed to generate reasoning"`. -/
def Reason (response : Option ChatResponseMsg) : String :=
  jsOrString (response.map ChatResponseMsg.content) "Failed to generate reasoning"

/-- Execution of one tool call inside `RunTools`: dispatch through
`callMCPTool`; a successful response contributes `content[0].text`, a
thrown dispatch error contributes the stringified catch message. -/
def runToolCall (servers : List MCPServer) (tc : ToolCall) : String :=
  match callMCPTool servers tc.name tc.arguments with
  | Except.ok result =>
    match result.content with
    | item :: _ => item.text
    | [] => "Tool execution failed: TypeError: cannot read text of empty content"
  | Except.error msg => "Tool execution failed: Error: " ++ msg

/-- `AIInteraction.RunTools` outcome `(results, toolCalls)`: a `null`
response yields a failure sentinel, zero tool calls yield the
`"No tools were executed"` sentinel, otherwise each requested call is
executed sequentially through the dispatcher. -/
def RunTools (servers : List MCPServer) (response : Option ChatResponseMsg) :
    List String × List ToolCall :=
  match response with
  | none => (["Failed to get response from AI"], [])
  | some r =>
    match r.tool_calls with
    | [] => (["No tools were executed"], [])
    | tc :: tcs => ((tc :: tcs).map (runToolCall servers), tc :: tcs)

/-- The system prompt built by `AIInteraction.Reason`. -/
def reasoningPrompt (message : String) (context : Option String) (toolsDesc : String) : String :=
  "You are an AI assistant that needs to analyze a user request and create a plan to solve it.\n\nUser Request: "
  ++ message ++ "\n" ++
  (match context with
   | some c => "\nContext: " ++ c
   | none => "") ++
  "\n\nYour task is to:\n1. Understand what the user is asking for\n2. Identify what information or actions you need to take\n3. Plan which tools (if any) would be helpful\n4. Provide a clear reasoning of your approach\n\nAvailable tools: "
  ++ toolsDesc ++
  "\n\nRespond with your reasoning and plan. Be specific about:\n- What you understand the user wants\n- What tools you would use and why\n- What information you expect to gather\n- Any potential challenges or considerations\n\nFormat your response clearly and be thorough in your analysis."

/-- The system prompt built by `AIInteraction.RunTools`. -/
def toolExecutionPrompt (reasoning originalMessage toolsDesc : String) : String :=
  "Based on the reasoning below, execute the necessary tools to gather information or perform actions.\n\nReasoning: "
  ++ reasoning ++ "\n\nOriginal User Request: " ++ originalMessage ++ "\n\nAvailable tools: "
  ++ toolsDesc ++
  "\n\nYour task is to:\n1. Review the reasoning and identify which tools need to be called\n2. Execute the appropriate tools with the correct parameters\n3. Gather all necessary information to answer the user\x27s request\n\nUse tools proactively based on the reasoning. If the reasoning suggests exploring files, directories, or gathering specific information, use the appropriate tools to do so.\n\nBe thorough and systematic in your approach."

/-- The system prompt built by `AIInteraction.Evaluate`. -/
def evaluationPrompt (originalMessage reasoning : String) (toolResults : List String) : String :=
  "You are evaluating whether a task has been completed successfully.\n\nOriginal User Request: "
  ++ originalMessage ++ "\n\nInitial Reasoning: " ++ reasoning ++ "\n\nTool Results: "
  ++ joinSep "\n\n---\n\n" toolResults ++
  "\n\nYour task is to:\n1. Review the original request and what was planned\n2. Analyze the tool results to see if they provide sufficient information\n3. Determine if the task is complete or if more work is needed\n4. If complete, provide a comprehensive final response\n5. If not complete, explain what additional steps are needed\n6. If the task cannot be completed with the available tools, explain why and provide a final response.\n\nRespond with:\n- A clear assessment of whether the task is complete\n- If complete: A thorough, helpful response to the user\n- If not complete: What additional information or actions are needed\n- If you are done or cannot continue clearly state so with **DONE**\n\nBe honest about whether you have enough information to fully answer the user\x27s request."

/-! ## The orchestration loop `AIInteraction.chatWithAI` -/

inductive Phase where
  | reason
  | act
  | evaluate
deriving DecidableEq

/-- The reasoning backend as an oracle: the response (or transport failure)
for each phase call of each iteration. -/
abbrev BackendOracle := Nat → Phase → Option ChatResponseMsg

/-- Everything one pass of the while-loop body computes. -/
structure IterationRecord where
  index : Nat
  reasonPrompt : String
  reasoning : String
  toolResults : List String
  toolCalls : List ToolCall
  actPrompt : String
  evalPrompt : String
  isComplete : Bool
  finalResponse : String
deriving DecidableEq

/-- Observable outcome of one `chatWithAI` run: the final value of the
`iterations` counter, whether the loop exited through the completion break
(`completed`), the final response printed on completion, whether the
post-loop `iterations >= 5` report fired (`limitMessage`), and the
transcript. -/
structure RunResult where
  iterations : Nat
  completed : Bool
  finalResponse : Option String
  limitMessage : Bool
  history : List IterationRecord
  allToolResults : List String
deriving DecidableEq

/-- One pass of the loop body at counter value `i` with the session-wide
accumulated results `allToolResults`: build the REASON context and prompt,
obtain the plan, execute the ACT phase, then evaluate. -/
def mkIteration (servers : List MCPServer) (oracle : BackendOracle)
    (userRequest : String) (i : Nat) (allToolResults : List String) : IterationRecord :=
  let toolsDesc := toolsDescription (getMCPTools servers)
  let context :=
    if allToolResults.length > 0 then
      some ("Previous tool results: " ++ joinSep "\n\n" allToolResults)
    else none
  let reasoning := Reason (oracle i Phase.reason)
  let acted := RunTools servers (oracle i Phase.act)
  let evaluated := Evaluate userRequest reasoning acted.1 (oracle i Phase.evaluate)
  { index := i,
    reasonPrompt := reasoningPrompt userRequest context toolsDesc,
    reasoning := reasoning,
    toolResults := acted.1,
    toolCalls := acted.2,
    actPrompt := toolExecutionPrompt reasoning userRequest toolsDesc,
    evalPrompt := evaluationPrompt userRequest reasoning acted.1,
    isComplete := evaluated.1,
    finalResponse := evaluated.2 }

/-- State of the run when the while-loop exits through its condition (or the
fuel, see `chatLoop`): no completion break, and the `iterations >= 5`
post-loop report decides the limit message. -/
def finishRun (iterations : Nat) (allToolResults : List String)
    (history : List IterationRecord) : RunResult :=
  { iterations := iterations, completed := false, finalResponse := none,
    limitMessage := decide (iterations ≥ 5), history := history,
    allToolResults := allToolResults }

/-- The `while (iterations < 10)` loop.  `fuel` is a structural bound on the
remaining passes; started with `fuel = 10` and `iterations = 0` it never
expires before the condition `iterations < 10` fails, because `iterations`
increases by exactly one per continuing pass.  On a completing pass the loop
breaks before incrementing the counter. -/
def chatLoop (servers : List MCPServer) (oracle : BackendOracle) (userRequest : String) :
    Nat → Nat → List String → List IterationRecord → RunResult
  | 0, iterations, acc, hist => finishRun iterations acc hist
  | fuel + 1, iterations, acc, hist =>
    if iterations < 10 then
      let rcd := mkIteration servers oracle userRequest iterations acc
      if rcd.isComplete then
        { iterations := iterations, completed := true,
          finalResponse := some rcd.finalResponse,
          limitMessage := decide (iterations ≥ 5),
          history := hist ++ [rcd],
          allToolResults := acc ++ rcd.toolResults }
      else
        chatLoop servers oracle userRequest fuel (iterations + 1)
          (acc ++ rcd.toolResults) (hist ++ [rcd])
    else finishRun iterations acc hist

/-- `AIInteraction.chatWithAI`: run the loop from a fresh session. -/
def chatWithAI (servers : List MCPServer) (oracle : BackendOracle)
    (userRequest : String) : RunResult :=
  chatLoop servers oracle userRequest 10 0 [] []

/-- Concatenation of the per-iteration result lists of a transcript. -/
def flatResults (hist : List IterationRecord) : List String :=
  (hist.map fun r => r.toolResults).flatten

/-! ## Concrete fixtures used by witnesses -/

/-- A server whose `listTools` and `callTool` both throw. -/
def failingServer : MCPServer := { name := "filesystem-server" }

/-- A server that answers every `callTool` with one text content block. -/
def okServer : MCPServer :=
  { name := "backup-server",
    listToolsResult := some [],
    callToolResult := fun _ _ => some { content := [{ text := "file listing" }] } }

def toolListFiles : MCPTool :=
  { name := "list_files", description := some "List files and directories" }

def serverOne : MCPServer :=
  { name := "s1", listToolsResult := some [toolListFiles] }

def serverTwo : MCPServer :=
  { name := "s2", listToolsResult := some [toolListFiles] }

/-! ## Claim theorems: classifier, dispatcher, catalog, ACT sentinel -/

/-- C1: the completion classifier returns `true` exactly when the
lower-cased evaluation text contains `**done**`, or contains
`task evaluation: complete`, or contains both `complete` and `task`;
with the four contract examples of the spec. -/
theorem classify_heuristic_spec :
    (∀ t : String,
      classifyIsComplete t = true ↔
        (strContains (jsToLowerCase t) "**done**" ∨
         strContains (jsToLowerCase t) "task evaluation: complete" ∨
         (strContains (jsToLowerCase t) "complete" ∧
          strContains (jsToLowerCase t) "task"))) ∧
    classifyIsComplete "Task Evaluation: Complete" = true ∧
    classifyIsComplete "**DONE**" = true ∧
    classifyIsComplete "the task is not complete yet" = true ∧
    classifyIsComplete "still working on it" = false := by
  refine ⟨?_, by decide, by decide, by decide, by decide⟩
  intro t
  unfold classifyIsComplete
  simp only [Bool.or_eq_true, Bool.and_eq_true, strIncludes_iff]
  exact or_assoc

/-- C1 witness: the first contract example, through the theorem. -/
theorem classify_heuristic_spec_witness :
    classifyIsComplete "Task Evaluation: Complete" = true :=
  classify_heuristic_spec.2.1

/-- C2: when every server before `s` throws on `callTool` and `s` succeeds
with `r`, the dispatcher returns `r` and invokes `callTool` on exactly the
servers up to and including `s` — never on a later one. -/
theorem callMCPTool_first_success (pre post : List MCPServer) (s : MCPServer)
    (toolName : String) (args : ToolArgs) (r : ToolResponse)
    (hpre : ∀ p ∈ pre, p.callToolResult toolName args = none)
    (hs : s.callToolResult toolName args = some r) :
    callMCPTool (pre ++ s :: post) toolName args = Except.ok r ∧
    attemptedServers (pre ++ s :: post) toolName args = pre ++ [s] := by
  induction pre with
  | nil => simp [callMCPTool, attemptedServers, hs]
  | cons p ps ih =>
    have hp := hpre p (by simp)
    have hrest := ih fun q hq => hpre q (by simp [hq])
    simp [callMCPTool, attemptedServers, hp, hrest.1, hrest.2]

/-- C2 witness: one throwing server, then a succeeding one. -/
theorem callMCPTool_first_success_witness :
    callMCPTool [failingServer, okServer] "list_files" [] =
      Except.ok { content := [{ text := "file listing" }] } ∧
    attemptedServers [failingServer, okServer] "list_files" [] =
      [failingServer, okServer] := by
  have h := callMCPTool_first_success [failingServer] [] okServer "list_files" []
    { content := [{ text := "file listing" }] }
    (fun p hp => by rw [List.mem_singleton.mp hp]; rfl) rfl
  simpa using h

/-- C3: when every registered server throws on `callTool` — the empty
registration included — the dispatcher fails with the tool-not-found error,
whose message contains the requested tool name. -/
theorem callMCPTool_all_throw (servers : List MCPServer) (toolName : String)
    (args : ToolArgs)
    (h : ∀ p ∈ servers, p.callToolResult toolName args = none) :
    callMCPTool servers toolName args =
      Except.error (toolNotFoundMessage toolName) ∧
    strContains (toolNotFoundMessage toolName) toolName := by
  constructor
  · induction servers with
    | nil => rfl
    | cons p ps ih =>
      have hp := h p (by simp)
      have hrest := ih fun q hq => h q (by simp [hq])
      simp [callMCPTool, hp, hrest]
  · exact ⟨"Tool ".data, " not found on any MCP server".data,
      by simp [toolNotFoundMessage]⟩

/-- C3 witness: a single throwing server. -/
theorem callMCPTool_all_throw_witness :
    callMCPTool [failingServer] "get_file_content" [] =
      Except.error (toolNotFoundMessage "get_file_content") ∧
    strContains (toolNotFoundMessage "get_file_content") "get_file_content" :=
  callMCPTool_all_throw [failingServer] "get_file_content" []
    fun p hp => by rw [List.mem_singleton.mp hp]; rfl

/-- C9: catalog assembly is total — the result is the concatenation of each
server's converted tool list in registration order, a server whose
`listTools` throws contributes exactly no tools, a server whose `listTools`
succeeds contributes its full converted list, and dropping a throwing
server leaves every other contribution intact (no global deduplication is
applied anywhere). -/
theorem getMCPTools_catalog (servers : List MCPServer) :
    getMCPTools servers = (servers.map serverTools).flatten ∧
    (∀ s : MCPServer, s.listToolsResult = none → serverTools s = []) ∧
    (∀ (s : MCPServer) (ts : List MCPTool), s.listToolsResult = some ts →
      serverTools s = ts.map convertMCPTool) ∧
    (∀ (pre post : List MCPServer) (bad : MCPServer), bad.listToolsResult = none →
      getMCPTools (pre ++ bad :: post) = getMCPTools pre ++ getMCPTools post) := by
  refine ⟨?_, ?_, ?_, ?_⟩
  · induction servers with
    | nil => rfl
    | cons s ss ih => simp [getMCPTools, ih]
  · intro s hs
    simp [serverTools, hs]
  · intro s ts hs
    simp [serverTools, hs]
  · intro pre post bad hbad
    induction pre with
    | nil => simp [getMCPTools, serverTools, hbad]
    | cons p ps ih => simp [getMCPTools, ih, List.append_assoc]

/-- C9 witness: a throwing server between two servers exporting the same
tool name contributes nothing, and the duplicate is kept. -/
theorem getMCPTools_catalog_witness :
    getMCPTools [serverOne, failingServer, serverTwo] =
      getMCPTools [serverOne] ++ getMCPTools [serverTwo] ∧
    getMCPTools [serverOne, failingServer, serverTwo] =
      [convertMCPTool toolListFiles, convertMCPTool toolListFiles] := by
  refine ⟨?_, by rfl⟩
  exact (getMCPTools_catalog []).2.2.2 [serverOne] [serverTwo] failingServer rfl

/-- C8: an ACT-phase response carrying zero tool-call requests produces the
`"No tools were executed"` sentinel as the iteration's single result, no
error, and the iteration still reaches EVALUATE: its evaluation prompt is
built from that sentinel list. -/
theorem runTools_zero_calls_sentinel (servers : List MCPServer)
    (oracle : BackendOracle) (userRequest : String) (i : Nat)
    (acc : List String) (r : ChatResponseMsg)
    (hact : oracle i Phase.act = some r) (hzero : r.tool_calls = []) :
    (RunTools servers (some r)).1 = ["No tools were executed"] ∧
    (RunTools servers (some r)).2 = [] ∧
    (mkIteration servers oracle userRequest i acc).toolResults =
      ["No tools were executed"] ∧
    (mkIteration servers oracle userRequest i acc).evalPrompt =
      evaluationPrompt userRequest
        (mkIteration servers oracle userRequest i acc).reasoning
        ["No tools were executed"] := by
  have h1 : RunTools servers (some r) = (["No tools were executed"], []) := by
    simp [RunTools, hzero]
  refine ⟨by simp [h1], by simp [h1], ?_, ?_⟩
  · simp [mkIteration, hact, h1]
  · simp [mkIteration, hact, h1]

/-! ## Helper lemmas about prompts and the loop -/

theorem strContains_trans (a b c : String) (hab : strContains a b)
    (hbc : strContains b c) : strContains a c := by
  rcases hab with ⟨u1, v1, h1⟩
  rcases hbc with ⟨u2, v2, h2⟩
  exact ⟨u1 ++ u2, v2 ++ v1, by rw [h1, h2]; simp⟩

theorem reasoningPrompt_contains_context (m c td : String) :
    strContains (reasoningPrompt m (some c) td) c := by
  unfold reasoningPrompt
  exact strContains_append_left _ _ _ (strContains_append_left _ _ _
    (strContains_append_left _ _ _ (strContains_append_right _ _ _
      (strContains_append_right _ _ _ (strContains_self c)))))

theorem evaluationPrompt_contains_request (m r : String) (ts : List String) :
    strContains (evaluationPrompt m r ts) m := by
  unfold evaluationPrompt
  exact strContains_append_left _ _ _ (strContains_append_left _ _ _
    (strContains_append_left _ _ _ (strContains_append_left _ _ _
      (strContains_append_left _ _ _ (strContains_append_right _ _ _
        (strContains_self m))))))

theorem evaluationPrompt_contains_reasoning (m r : String) (ts : List String) :
    strContains (evaluationPrompt m r ts) r := by
  unfold evaluationPrompt
  exact strContains_append_left _ _ _ (strContains_append_left _ _ _
    (strContains_append_left _ _ _ (strContains_append_right _ _ _
      (strContains_self r))))

theorem evaluationPrompt_contains_result (m r : String) (ts : List String)
    (t : String) (ht : t ∈ ts) : strContains (evaluationPrompt m r ts) t := by
  unfold evaluationPrompt
  exact strContains_append_left _ _ _ (strContains_append_right _ _ _
    (strContains_joinSep _ _ _ ht))

/-- `RunTools` always produces at least one result string. -/
theorem runTools_results_ne_nil (servers : List MCPServer)
    (response : Option ChatResponseMsg) : (RunTools servers response).1 ≠ [] := by
  cases response with
  | none => simp [RunTools]
  | some r =>
    cases h : r.tool_calls with
    | nil => simp [RunTools, h]
    | cons tc tcs => simp [RunTools, h]

theorem flatResults_concat (hist : List IterationRecord) (rcd : IterationRecord) :
    flatResults (hist ++ [rcd]) = flatResults hist ++ rcd.toolResults := by
  simp [flatResults]

theorem flatResults_take_one (hist : List IterationRecord) (h : 0 < hist.length) :
    flatResults (hist.take 1) = (hist.get ⟨0, h⟩).toolResults := by
  cases hist with
  | nil => exact absurd h (by simp)
  | cons a t => simp [flatResults]

/-- The iteration's completion flag is the classifier verdict on the
EVALUATE response of that iteration. -/
theorem mkIteration_isComplete (servers : List MCPServer) (oracle : BackendOracle)
    (req : String) (i : Nat) (acc : List String) :
    (mkIteration servers oracle req i acc).isComplete =
      classifyIsComplete (evalResponseText (oracle i Phase.evaluate)) := by
  simp [mkIteration, Evaluate]

theorem mkIteration_finalResponse (servers : List MCPServer) (oracle : BackendOracle)
    (req : String) (i : Nat) (acc : List String) :
    (mkIteration servers oracle req i acc).finalResponse =
      evalResponseText (oracle i Phase.evaluate) := by
  simp [mkIteration, Evaluate]

/-- The REASON prompt of an iteration with a nonempty accumulated-results
list contains every accumulated result text. -/
theorem mkIteration_reasonPrompt_contains (servers : List MCPServer)
    (oracle : BackendOracle) (req : String) (i : Nat) (acc : List String)
    (t : String) (ht : t ∈ acc) :
    strContains (mkIteration servers oracle req i acc).reasonPrompt t := by
  have hlen : acc.length > 0 := List.length_pos.mpr (List.ne_nil_of_mem ht)
  have hctx : strContains ("Previous tool results: " ++ joinSep "\n\n" acc) t :=
    strContains_append_right _ _ _ (strContains_joinSep _ _ _ ht)
  have hrp : (mkIteration servers oracle req i acc).reasonPrompt =
      reasoningPrompt req (some ("Previous tool results: " ++ joinSep "\n\n" acc))
        (toolsDescription (getMCPTools servers)) := by
    simp [mkIteration, hlen]
  rw [hrp]
  exact strContains_trans _ _ _ (reasoningPrompt_contains_context _ _ _) hctx

/-- One continuing pass of the while loop. -/
theorem chatLoop_step_continue (servers : List MCPServer) (oracle : BackendOracle)
    (req : String) (fuel its : Nat) (acc : List String)
    (hist : List IterationRecord) (hlt : its < 10)
    (hc : (mkIteration servers oracle req its acc).isComplete = false) :
    chatLoop servers oracle req (fuel + 1) its acc hist =
      chatLoop servers oracle req fuel (its + 1)
        (acc ++ (mkIteration servers oracle req its acc).toolResults)
        (hist ++ [mkIteration servers oracle req its acc]) := by
  simp [chatLoop, hlt, hc]

/-- One breaking pass of the while loop. -/
theorem chatLoop_step_break (servers : List MCPServer) (oracle : BackendOracle)
    (req : String) (fuel its : Nat) (acc : List String)
    (hist : List IterationRecord) (hlt : its < 10)
    (hc : (mkIteration servers oracle req its acc).isComplete = true) :
    chatLoop servers oracle req (fuel + 1) its acc hist =
      { iterations := its, completed := true,
        finalResponse := some (mkIteration servers oracle req its acc).finalResponse,
        limitMessage := decide (its ≥ 5),
        history := hist ++ [mkIteration servers oracle req its acc],
        allToolResults := acc ++ (mkIteration servers oracle req its acc).toolResults } := by
  simp [chatLoop, hlt, hc]

/-- Loop exit through the `iterations < 10` condition. -/
theorem chatLoop_stop (servers : List MCPServer) (oracle : BackendOracle)
    (req : String) (fuel its : Nat) (acc : List String)
    (hist : List IterationRecord) (h : ¬ its < 10) :
    chatLoop servers oracle req (fuel + 1) its acc hist = finishRun its acc hist := by
  simp [chatLoop, h]

/-- Structural invariants every run satisfies: the session-wide list is the
concatenation of the per-iteration results; record `j` is exactly the loop
body applied at counter `j` to the results accumulated before it; the limit
message is the `iterations >= 5` report; a run without the completion break
leaves no final response, a counter equal to the transcript length, and no
complete record; a run with the break stops at its first complete record,
surfacing its final response. -/
def GoodRun (servers : List MCPServer) (oracle : BackendOracle) (req : String)
    (res : RunResult) : Prop :=
  res.allToolResults = flatResults res.history ∧
  (∀ (j : Nat) (hj : j < res.history.length),
    res.history.get ⟨j, hj⟩ =
      mkIteration servers oracle req j (flatResults (res.history.take j))) ∧
  res.limitMessage = decide (res.iterations ≥ 5) ∧
  (res.completed = false →
    res.finalResponse = none ∧ res.iterations = res.history.length ∧
    ∀ (j : Nat) (hj : j < res.history.length),
      (res.history.get ⟨j, hj⟩).isComplete = false) ∧
  (res.completed = true →
    res.iterations + 1 = res.history.length ∧
    (∃ last : IterationRecord, res.history.getLast? = some last ∧
      last.isComplete = true ∧ res.finalResponse = some last.finalResponse) ∧
    ∀ (j : Nat) (hj : j < res.history.length), j + 1 < res.history.length →
      (res.history.get ⟨j, hj⟩).isComplete = false)

theorem goodRun_finishRun (servers : List MCPServer) (oracle : BackendOracle)
    (req : String) (its : Nat) (acc : List String) (hist : List IterationRecord)
    (h1 : its = hist.length) (h2 : acc = flatResults hist)
    (h3 : ∀ (j : Nat) (hj : j < hist.length),
      hist.get ⟨j, hj⟩ = mkIteration servers oracle req j (flatResults (hist.take j)))
    (h4 : ∀ (j : Nat) (hj : j < hist.length), (hist.get ⟨j, hj⟩).isComplete = false) :
    GoodRun servers oracle req (finishRun its acc hist) := by
  refine ⟨h2, h3, rfl, fun _ => ⟨rfl, h1, h4⟩, fun hc => absurd hc (by simp [finishRun])⟩

/-- Appending the canonical next record preserves the per-index
characterization. -/
theorem extend_char (servers : List MCPServer) (oracle : BackendOracle)
    (req : String) (hist : List IterationRecord) (rcd : IterationRecord)
    (h3 : ∀ (j : Nat) (hj : j < hist.length),
      hist.get ⟨j, hj⟩ = mkIteration servers oracle req j (flatResults (hist.take j)))
    (hr : rcd = mkIteration servers oracle req hist.length (flatResults hist)) :
    ∀ (j : Nat) (hj : j < (hist ++ [rcd]).length),
      (hist ++ [rcd]).get ⟨j, hj⟩ =
        mkIteration servers oracle req j (flatResults ((hist ++ [rcd]).take j)) := by
  intro j hj
  rcases Nat.lt_or_ge j hist.length with hlt | hge
  · rw [List.get_append j hlt, List.take_append_of_le_length (Nat.le_of_lt hlt)]
    exact h3 j hlt
  · have hje : j = hist.length := by
      have := hj
      simp only [List.length_append, List.length_singleton] at this
      omega
    subst hje
    rw [List.get_last (by simp), List.take_left]
    exact hr

theorem extend_incomplete (hist : List IterationRecord) (rcd : IterationRecord)
    (h4 : ∀ (j : Nat) (hj : j < hist.length), (hist.get ⟨j, hj⟩).isComplete = false)
    (hc : rcd.isComplete = false) :
    ∀ (j : Nat) (hj : j < (hist ++ [rcd]).length),
      ((hist ++ [rcd]).get ⟨j, hj⟩).isComplete = false := by
  intro j hj
  rcases Nat.lt_or_ge j hist.length with hlt | hge
  · rw [List.get_append j hlt]
    exact h4 j hlt
  · have hje : j = hist.length := by
      have := hj
      simp only [List.length_append, List.length_singleton] at this
      omega
    subst hje
    rw [List.get_last (by simp)]
    exact hc

theorem mkIteration_evalPrompt (servers : List MCPServer) (oracle : BackendOracle)
    (req : String) (i : Nat) (acc : List String) :
    (mkIteration servers oracle req i acc).evalPrompt =
      evaluationPrompt req (Reason (oracle i Phase.reason))
        (RunTools servers (oracle i Phase.act)).1 := by
  simp [mkIteration]

theorem mkIteration_reasoning (servers : List MCPServer) (oracle : BackendOracle)
    (req : String) (i : Nat) (acc : List String) :
    (mkIteration servers oracle req i acc).reasoning =
      Reason (oracle i Phase.reason) := by
  simp [mkIteration]

theorem mkIteration_toolResults (servers : List MCPServer) (oracle : BackendOracle)
    (req : String) (i : Nat) (acc : List String) :
    (mkIteration servers oracle req i acc).toolResults =
      (RunTools servers (oracle i Phase.act)).1 := by
  simp [mkIteration]

/-- Master characterization: started from a state whose transcript already
satisfies the invariants, the loop preserves them and executes at most
`max its 10` total recorded iterations. -/
theorem chatLoop_good (servers : List MCPServer) (oracle : BackendOracle) (req : String) :
    ∀ (fuel its : Nat) (acc : List String) (hist : List IterationRecord),
    its = hist.length →
    acc = flatResults hist →
    (∀ (j : Nat) (hj : j < hist.length),
      hist.get ⟨j, hj⟩ = mkIteration servers oracle req j (flatResults (hist.take j))) →
    (∀ (j : Nat) (hj : j < hist.length), (hist.get ⟨j, hj⟩).isComplete = false) →
    GoodRun servers oracle req (chatLoop servers oracle req fuel its acc hist) ∧
    (chatLoop servers oracle req fuel its acc hist).history.length ≤ max its 10 := by
  intro fuel
  induction fuel with
  | zero =>
    intro its acc hist h1 h2 h3 h4
    refine ⟨goodRun_finishRun servers oracle req its acc hist h1 h2 h3 h4, ?_⟩
    show hist.length ≤ max its 10
    rw [← h1]
    exact Nat.le_max_left its 10
  | succ fuel ih =>
    intro its acc hist h1 h2 h3 h4
    by_cases hlt : its < 10
    · have hr : mkIteration servers oracle req its acc =
          mkIteration servers oracle req hist.length (flatResults hist) := by
        rw [← h1, ← h2]
      by_cases hc : (mkIteration servers oracle req its acc).isComplete = true
      · rw [chatLoop_step_break servers oracle req fuel its acc hist hlt hc]
        constructor
        · refine ⟨?_, ?_, rfl, ?_, ?_⟩
          · show acc ++ (mkIteration servers oracle req its acc).toolResults =
              flatResults (hist ++ [mkIteration servers oracle req its acc])
            rw [flatResults_concat, h2]
          · exact extend_char servers oracle req hist _ h3 hr
          · intro hfalse
            exact absurd hfalse (by simp)
          · intro _
            refine ⟨by simp [h1], ⟨mkIteration servers oracle req its acc,
              List.getLast?_concat hist, hc, rfl⟩, ?_⟩
            intro j hj hj2
            have hjl : j < hist.length := by
              simp only [List.length_append, List.length_singleton] at hj2
              omega
            rw [List.get_append j hjl]
            exact h4 j hjl
        · show (hist ++ [mkIteration servers oracle req its acc]).length ≤ max its 10
          have hlen : (hist ++ [mkIteration servers oracle req its acc]).length = its + 1 := by
            simp [← h1]
          rw [hlen]
          exact Nat.le_trans (by omega) (Nat.le_max_right its 10)
      · have hcf : (mkIteration servers oracle req its acc).isComplete = false := by
          simpa using hc
        rw [chatLoop_step_continue servers oracle req fuel its acc hist hlt hcf]
        obtain ⟨hg, hb⟩ := ih (its + 1)
          (acc ++ (mkIteration servers oracle req its acc).toolResults)
          (hist ++ [mkIteration servers oracle req its acc])
          (by simp [h1])
          (by rw [flatResults_concat, h2])
          (extend_char servers oracle req hist _ h3 hr)
          (extend_incomplete hist _ h4 hcf)
        refine ⟨hg, Nat.le_trans hb ?_⟩
        have hm1 : max (its + 1) 10 = 10 := Nat.max_eq_right (by omega)
        have hm2 : (10 : Nat) ≤ max its 10 := Nat.le_max_right its 10
        omega
    · rw [chatLoop_stop servers oracle req fuel its acc hist hlt]
      refine ⟨goodRun_finishRun servers oracle req its acc hist h1 h2 h3 h4, ?_⟩
      show hist.length ≤ max its 10
      rw [← h1]
      exact Nat.le_max_left its 10

/-- When the classifier rejects every EVALUATE response, the loop runs its
full fuel down to the bound: counter 10, no break, limit report fired. -/
theorem chatLoop_all_false (servers : List MCPServer) (oracle : BackendOracle)
    (req : String)
    (hAll : ∀ i, classifyIsComplete (evalResponseText (oracle i Phase.evaluate)) = false) :
    ∀ (fuel its : Nat) (acc : List String) (hist : List IterationRecord),
    fuel + its = 10 →
    (chatLoop servers oracle req fuel its acc hist).iterations = 10 ∧
    (chatLoop servers oracle req fuel its acc hist).completed = false ∧
    (chatLoop servers oracle req fuel its acc hist).history.length = hist.length + fuel ∧
    (chatLoop servers oracle req fuel its acc hist).limitMessage = true ∧
    (chatLoop servers oracle req fuel its acc hist).finalResponse = none := by
  intro fuel
  induction fuel with
  | zero =>
    intro its acc hist hsum
    have h10 : its = 10 := by omega
    subst h10
    exact ⟨rfl, rfl, rfl, rfl, rfl⟩
  | succ fuel ih =>
    intro its acc hist hsum
    have hlt : its < 10 := by omega
    have hcf : (mkIteration servers oracle req its acc).isComplete = false := by
      rw [mkIteration_isComplete]
      exact hAll its
    rw [chatLoop_step_continue servers oracle req fuel its acc hist hlt hcf]
    obtain ⟨ha, hb, hcl, hd, he⟩ := ih (its + 1)
      (acc ++ (mkIteration servers oracle req its acc).toolResults)
      (hist ++ [mkIteration servers oracle req its acc]) (by omega)
    refine ⟨ha, hb, ?_, hd, he⟩
    rw [hcl]
    simp only [List.length_append, List.length_singleton]
    omega

/-- C8 witness: no providers registered and a response with no tool calls. -/
theorem runTools_zero_calls_sentinel_witness :
    (RunTools [] (some { content := "no tools needed", tool_calls := [] })).1 =
      ["No tools were executed"] ∧
    (mkIteration [] (fun _ _ => some { content := "no tools needed", tool_calls := [] })
        "say hi" 0 []).toolResults = ["No tools were executed"] := by
  have h := runTools_zero_calls_sentinel []
    (fun _ _ => some { content := "no tools needed", tool_calls := [] })
    "say hi" 0 [] { content := "no tools needed", tool_calls := [] } rfl rfl
  exact ⟨h.1, h.2.2.1⟩

/-! ## Oracles used by the loop theorems and witnesses -/

/-- A backend whose evaluation texts never satisfy the classifier. -/
def neverDoneOracle : BackendOracle := fun _ _ =>
  some { content := "keep going", tool_calls := [] }

/-- A backend whose evaluation first satisfies the classifier at iteration
index 5. -/
def doneAtFiveOracle : BackendOracle := fun i ph =>
  match ph with
  | Phase.evaluate =>
    if i < 5 then some { content := "still working on it", tool_calls := [] }
    else some { content := "**DONE**", tool_calls := [] }
  | _ => some { content := "plan text", tool_calls := [] }

/-- A backend whose evaluation satisfies the classifier immediately. -/
def doneImmediatelyOracle : BackendOracle := fun _ ph =>
  match ph with
  | Phase.evaluate => some { content := "**DONE**", tool_calls := [] }
  | _ => some { content := "plan text", tool_calls := [] }

/-- A backend that completes at iteration index 1, giving a two-iteration
transcript. -/
def twoIterOracle : BackendOracle := fun i ph =>
  match ph with
  | Phase.evaluate =>
    if i = 0 then some { content := "still working on it", tool_calls := [] }
    else some { content := "**DONE**", tool_calls := [] }
  | _ => some { content := "plan", tool_calls := [] }

/-- A backend whose every call fails at the transport. -/
def allNoneOracle : BackendOracle := fun _ _ => none

/-! ## Claim theorems: the orchestration loop -/

/-- C4: no run records more than 10 iterations; and when the classifier
rejects every evaluation response, the run records exactly the bound of 10
iterations and ends in the iteration-limit outcome (no completion break,
limit report emitted) instead of looping forever. -/
theorem chatWithAI_iteration_bound (servers : List MCPServer)
    (oracle : BackendOracle) (req : String) :
    (chatWithAI servers oracle req).history.length ≤ 10 ∧
    ((∀ i, classifyIsComplete (evalResponseText (oracle i Phase.evaluate)) = false) →
      (chatWithAI servers oracle req).history.length = 10 ∧
      (chatWithAI servers oracle req).iterations = 10 ∧
      (chatWithAI servers oracle req).completed = false ∧
      (chatWithAI servers oracle req).limitMessage = true) := by
  constructor
  · have h := (chatLoop_good servers oracle req 10 0 [] [] rfl rfl
      (fun j hj => absurd hj (Nat.not_lt_zero j))
      (fun j hj => absurd hj (Nat.not_lt_zero j))).2
    simpa [chatWithAI] using h
  · intro hAll
    obtain ⟨ha, hb, hcl, hd, _⟩ := chatLoop_all_false servers oracle req hAll 10 0 [] [] rfl
    exact ⟨by simpa [chatWithAI] using hcl, ha, hb, hd⟩

/-- C4 witness: a backend that always answers but never completes. -/
theorem chatWithAI_iteration_bound_witness :
    (chatWithAI [] neverDoneOracle "organize my files").history.length = 10 ∧
    (chatWithAI [] neverDoneOracle "organize my files").completed = false ∧
    (chatWithAI [] neverDoneOracle "organize my files").limitMessage = true := by
  have h := (chatWithAI_iteration_bound [] neverDoneOracle "organize my files").2
    (fun _ => rfl)
  exact ⟨h.1, h.2.2.1, h.2.2.2⟩

/-- C5 evidence: the loop condition compares the counter against 10 but the
post-loop report fires at `iterations >= 5`, and it fires even after a
completion break: a run whose classifier first returns true at iteration
index 5 — before the bound 10 — breaks with the counter at 5 yet still
emits the limit message; a run completing at index 0 does not emit it; a
full 10-iteration run does. -/
theorem chatWithAI_limit_report_mismatch :
    (chatWithAI [] doneAtFiveOracle "request").completed = true ∧
    (chatWithAI [] doneAtFiveOracle "request").iterations = 5 ∧
    (chatWithAI [] doneAtFiveOracle "request").history.length = 6 ∧
    (chatWithAI [] doneAtFiveOracle "request").limitMessage = true ∧
    (chatWithAI [] doneImmediatelyOracle "request").completed = true ∧
    (chatWithAI [] doneImmediatelyOracle "request").limitMessage = false ∧
    (chatWithAI [] neverDoneOracle "request").completed = false ∧
    (chatWithAI [] neverDoneOracle "request").limitMessage = true := by
  refine ⟨by decide, by decide, by decide, by decide, by decide, by decide,
    by decide, by decide⟩

/-- C6: every tool result of every iteration — success text or
error-describing string — is appended to the session-wide accumulated list,
which is exactly the concatenation of the per-iteration result lists;
record `j` holds precisely the ACT results of index `j`; and each result of
iteration 1 (index 0) occurs verbatim inside the REASON prompt of
iteration 2 (index 1) whenever the run has at least two iterations. -/
theorem chatWithAI_context_carry (servers : List MCPServer)
    (oracle : BackendOracle) (req : String) :
    (chatWithAI servers oracle req).allToolResults =
      flatResults (chatWithAI servers oracle req).history ∧
    (∀ (j : Nat) (hj : j < (chatWithAI servers oracle req).history.length),
      ((chatWithAI servers oracle req).history.get ⟨j, hj⟩).toolResults =
        (RunTools servers (oracle j Phase.act)).1) ∧
    ∀ (hlen : 1 < (chatWithAI servers oracle req).history.length) (t : String),
      t ∈ ((chatWithAI servers oracle req).history.get
            ⟨0, Nat.lt_of_le_of_lt (Nat.zero_le 1) hlen⟩).toolResults →
      strContains
        ((chatWithAI servers oracle req).history.get ⟨1, hlen⟩).reasonPrompt t := by
  obtain ⟨hflat, hchar, _, _, _⟩ := (chatLoop_good servers oracle req 10 0 [] [] rfl rfl
    (fun j hj => absurd hj (Nat.not_lt_zero j))
    (fun j hj => absurd hj (Nat.not_lt_zero j))).1
  refine ⟨hflat, ?_, ?_⟩
  · intro j hj
    rw [show ((chatWithAI servers oracle req).history.get ⟨j, hj⟩) =
      mkIteration servers oracle req j
        (flatResults ((chatWithAI servers oracle req).history.take j)) from hchar j hj]
    exact mkIteration_toolResults servers oracle req j _
  · intro hlen t ht
    have h0 : (0 : Nat) < (chatWithAI servers oracle req).history.length := by omega
    rw [show ((chatWithAI servers oracle req).history.get ⟨1, hlen⟩) =
      mkIteration servers oracle req 1
        (flatResults ((chatWithAI servers oracle req).history.take 1)) from hchar 1 hlen]
    apply mkIteration_reasonPrompt_contains
    rw [flatResults_take_one _ h0]
    exact ht

/-- C6 witness: the sentinel result of iteration 1 occurs in the REASON
prompt of iteration 2. -/
theorem chatWithAI_context_carry_witness :
    strContains
      ((chatWithAI [] twoIterOracle "list files").history.get
        ⟨1, by decide⟩).reasonPrompt
      "No tools were executed" :=
  (chatWithAI_context_carry [] twoIterOracle "list files").2.2 (by decide)
    "No tools were executed" (by decide)

/-- C7: every iteration's EVALUATE prompt is `evaluationPrompt` applied to
the original request, that iteration's plan, and exactly that iteration's
own tool results (the ACT output of the same index, not the session-wide
accumulated list), and the prompt contains the request, the plan, and each
of those result texts. -/
theorem chatWithAI_evaluate_prompt (servers : List MCPServer)
    (oracle : BackendOracle) (req : String) :
    ∀ (j : Nat) (hj : j < (chatWithAI servers oracle req).history.length),
      ((chatWithAI servers oracle req).history.get ⟨j, hj⟩).evalPrompt =
        evaluationPrompt req
          ((chatWithAI servers oracle req).history.get ⟨j, hj⟩).reasoning
          ((chatWithAI servers oracle req).history.get ⟨j, hj⟩).toolResults ∧
      ((chatWithAI servers oracle req).history.get ⟨j, hj⟩).toolResults =
        (RunTools servers (oracle j Phase.act)).1 ∧
      strContains ((chatWithAI servers oracle req).history.get ⟨j, hj⟩).evalPrompt req ∧
      strContains ((chatWithAI servers oracle req).history.get ⟨j, hj⟩).evalPrompt
        ((chatWithAI servers oracle req).history.get ⟨j, hj⟩).reasoning ∧
      ∀ t ∈ ((chatWithAI servers oracle req).history.get ⟨j, hj⟩).toolResults,
        strContains ((chatWithAI servers oracle req).history.get ⟨j, hj⟩).evalPrompt t := by
  intro j hj
  obtain ⟨_, hchar, _, _, _⟩ := (chatLoop_good servers oracle req 10 0 [] [] rfl rfl
    (fun k hk => absurd hk (Nat.not_lt_zero k))
    (fun k hk => absurd hk (Nat.not_lt_zero k))).1
  rw [show ((chatWithAI servers oracle req).history.get ⟨j, hj⟩) =
    mkIteration servers oracle req j
      (flatResults ((chatWithAI servers oracle req).history.take j)) from hchar j hj]
  rw [mkIteration_evalPrompt, mkIteration_reasoning, mkIteration_toolResults]
  refine ⟨rfl, rfl, ?_, ?_, ?_⟩
  · exact evaluationPrompt_contains_request _ _ _
  · exact evaluationPrompt_contains_reasoning _ _ _
  · intro t ht
    exact evaluationPrompt_contains_result _ _ _ t ht

/-- C7 witness: the first iteration's EVALUATE prompt contains the request. -/
theorem chatWithAI_evaluate_prompt_witness :
    strContains
      ((chatWithAI [] twoIterOracle "list files").history.get
        ⟨0, by decide⟩).evalPrompt
      "list files" :=
  (chatWithAI_evaluate_prompt [] twoIterOracle "list files" 0 (by decide)).2.2.1

/-- C10 counterexample: the sentinel `"Failed to evaluate task completion"`
does not contain the substring `"complete"` (the word `completion` diverges
from `complete` at its eighth letter), so the classifier returns `false` on
it, and a run whose EVALUATE backend call fails at iteration 0 does not
terminate in the DONE outcome: with every call failing, the run uses all 10
iterations and surfaces no final response. -/
theorem evaluate_transport_failure_counterexample :
    classifyIsComplete "Failed to evaluate task completion" = false ∧
    strIncludes (jsToLowerCase "Failed to evaluate task completion") "task" = true ∧
    strIncludes (jsToLowerCase "Failed to evaluate task completion") "complete" = false ∧
    allNoneOracle 0 Phase.evaluate = none ∧
    (chatWithAI [] allNoneOracle "list files").completed = false ∧
    (chatWithAI [] allNoneOracle "list files").finalResponse = none ∧
    (chatWithAI [] allNoneOracle "list files").history.length = 10 := by
  refine ⟨by decide, by decide, by decide, rfl, by decide, by decide, by decide⟩

/-- C10 amended: an EVALUATE transport failure substitutes the sentinel
`"Failed to evaluate task completion"`; the sentinel contains `"task"` but
not `"complete"`, so the classifier returns `false` and the loop continues
to another iteration; a run whose EVALUATE call fails every time ends at
the iteration limit, not in DONE. -/
theorem evaluate_transport_failure_behavior (servers : List MCPServer)
    (oracle : BackendOracle) (req : String) (a b : String) (ts : List String) :
    Evaluate a b ts none = (false, "Failed to evaluate task completion") ∧
    strContains (jsToLowerCase "Failed to evaluate task completion") "task" ∧
    strIncludes (jsToLowerCase "Failed to evaluate task completion") "complete" = false ∧
    ((∀ i, oracle i Phase.evaluate = none) →
      (chatWithAI servers oracle req).completed = false ∧
      (chatWithAI servers oracle req).history.length = 10 ∧
      (chatWithAI servers oracle req).limitMessage = true) := by
  refine ⟨rfl, (strIncludes_iff _ _).mp (by decide), by decide, ?_⟩
  intro hever
  have hAll : ∀ i, classifyIsComplete (evalResponseText (oracle i Phase.evaluate)) = false := by
    intro i
    rw [hever i]
    decide
  obtain ⟨_, hb, hcl, hd, _⟩ := chatLoop_all_false servers oracle req hAll 10 0 [] [] rfl
  exact ⟨hb, by simpa [chatWithAI] using hcl, hd⟩

/-- C10 amended witness: every backend call failing. -/
theorem evaluate_transport_failure_behavior_witness :
    (chatWithAI [] allNoneOracle "say hi").completed = false ∧
    (chatWithAI [] allNoneOracle "say hi").history.length = 10 ∧
    (chatWithAI [] allNoneOracle "say hi").limitMessage = true :=
  (evaluate_transport_failure_behavior [] allNoneOracle "say hi" "a" "b" []).2.2.2
    (fun _ => rfl)

end AIAgent
